import Mathlib

/-!
Shallow embedding of the term-draw diagram editor (src/main.rs) and proofs
about its input-processing engine.

The Rust program keeps one `GlobalState` record and mutates it in
`process_input` for every key event.  Coordinates are `u16` pairs; the two
grids (`diagram`, `preview`) are `HashMap<(u16,u16), char>`, which we embed
extensionally as functions `Coord → Option Char` (a `HashMap` is determined
by its `get` behaviour; iteration order never matters below because each
key is inserted at most once per loop).  Where the Rust `u16` arithmetic can
wrap (the arrow-direction checks `prev.0 + 1`, `prev.0 - 1`, `prev.1 + 1`,
`prev.1 - 1`) we model the release-profile two's-complement behaviour with
explicit `% 65536`; everywhere else the source guards additions by
`< window_size` and subtractions by `> 0`, so plain `Nat` arithmetic agrees
with `u16`.
-/

namespace TermDraw

/-- A grid coordinate `(x, y)`; the Rust code stores `u16` pairs. -/
abbrev Coord := Nat × Nat

/-- Extensional model of `HashMap<(u16,u16), char>`. -/
abbrev Grid := Coord → Option Char

/-- Model of `HashMap::new()`. -/
def Grid.empty : Grid := fun _ => none

/-- Model of `HashMap::insert` (pointwise view). -/
def Grid.insert (g : Grid) (k : Coord) (v : Char) : Grid :=
  fun p => if p = k then some v else g p

/-- Model of `HashMap::remove` (pointwise view). -/
def Grid.remove (g : Grid) (k : Coord) : Grid :=
  fun p => if p = k then none else g p

/-- The result of `for pair in pv.iter() { d.insert(*pair.0, *pair.1); }`:
each key of `pv` is inserted exactly once with its own value, so whatever
iteration order the `HashMap` uses, the final map sends `p` to `pv p` when
present and to `d p` otherwise. -/
def Grid.override (d pv : Grid) : Grid :=
  fun p => match pv p with
    | some c => some c
    | none => d p

/-- The mode tag `enum InputState { INSERT, BOX, ARROW }`. -/
inductive InputState
  | INSERT
  | BOX
  | ARROW
deriving DecidableEq

/-- The `struct GlobalState` record from src/main.rs (the `color` flag is carried but
never read by `process_input`). -/
structure GlobalState where
  color : Bool
  should_quit : Bool
  start_pos : Coord
  prev_pos : Coord
  current_pos : Coord
  diagram : Grid
  preview : Grid
  window_size : Coord
  input_state : InputState

/-- The `GlobalState::default()` state, with `window_size` set to the terminal size as
`run` does before the event loop (the size is captured once and never
changes within a session). -/
def initialState (size : Coord) : GlobalState :=
  { color := false
    should_quit := false
    start_pos := (0, 0)
    prev_pos := (0, 0)
    current_pos := (0, 0)
    diagram := Grid.empty
    preview := Grid.empty
    window_size := size
    input_state := InputState.INSERT }

/-- The key events `process_input` distinguishes: the CONTROL-modified
commands, and the plain (`KeyModifiers::NONE`) keys.  `ctrlOther` and
`other` are the two wildcard arms; `otherModifier` is the final wildcard on
the modifier match. -/
inductive KeyEvent
  | ctrlB
  | ctrlA
  | ctrlS
  | ctrlOther
  | esc
  | chr (c : Char)
  | backspace
  | left
  | right
  | up
  | down
  | enter
  | other
  | otherModifier
deriving DecidableEq

/-- The `match key.modifiers { ... match key.code { ... } }` block of
`process_input` (src/main.rs lines 128-219), before the shape-preview code
that follows it. -/
def matchStep (s : GlobalState) (e : KeyEvent) : GlobalState :=
  match e with
  | .ctrlB =>
      if s.input_state ≠ InputState.BOX then
        { s with input_state := InputState.BOX, start_pos := s.current_pos }
      else s
  | .ctrlA =>
      if s.input_state ≠ InputState.ARROW then
        { s with input_state := InputState.ARROW, start_pos := s.current_pos }
      else s
  | .ctrlS =>
      -- save writes the composited buffer to "output.txt"; it does not
      -- mutate the editor state (the I/O outcome is modelled by
      -- `handleSave` below)
      s
  | .ctrlOther => s
  | .esc => { s with should_quit := true }
  | .chr c =>
      -- the source shadows `global_state`: insert at the cursor, then
      -- advance the column when it is below the window width
      if s.input_state = InputState.INSERT then
        if s.current_pos.1 < s.window_size.1 then
          { s with diagram := s.diagram.insert s.current_pos c,
                   current_pos := (s.current_pos.1 + 1, s.current_pos.2) }
        else
          { s with diagram := s.diagram.insert s.current_pos c }
      else s
  | .backspace =>
      -- decrement the column first, then remove at the new cursor
      if s.input_state = InputState.INSERT then
        if s.current_pos.1 > 0 then
          { s with current_pos := (s.current_pos.1 - 1, s.current_pos.2),
                   diagram := s.diagram.remove
                     (s.current_pos.1 - 1, s.current_pos.2) }
        else s
      else s
  | .left =>
      if s.current_pos.1 > 0 then
        { s with prev_pos := s.current_pos,
                 current_pos := (s.current_pos.1 - 1, s.current_pos.2) }
      else s
  | .right =>
      if s.current_pos.1 < s.window_size.1 then
        { s with prev_pos := s.current_pos,
                 current_pos := (s.current_pos.1 + 1, s.current_pos.2) }
      else s
  | .up =>
      if s.current_pos.2 > 0 then
        { s with prev_pos := s.current_pos,
                 current_pos := (s.current_pos.1, s.current_pos.2 - 1) }
      else s
  | .down =>
      if s.current_pos.2 < s.window_size.2 then
        { s with prev_pos := s.current_pos,
                 current_pos := (s.current_pos.1, s.current_pos.2 + 1) }
      else s
  | .enter =>
      match s.input_state with
      | InputState.BOX =>
          { s with diagram := Grid.override s.diagram s.preview,
                   preview := Grid.empty,
                   input_state := InputState.INSERT }
      | InputState.INSERT =>
          -- newline: advance the row when below the window height, then
          -- reset the column to 0
          if s.current_pos.2 < s.window_size.2 then
            { s with current_pos := (0, s.current_pos.2 + 1) }
          else
            { s with current_pos := (0, s.current_pos.2) }
      | InputState.ARROW =>
          { s with diagram := Grid.override s.diagram s.preview,
                   preview := Grid.empty,
                   input_state := InputState.INSERT }
  | .other => s
  | .otherModifier => s

/-- The box generator (src/main.rs lines 222-241): `preview.clear()` then
the two edge loops and the four corner inserts, keyed from
`(current_pos, start_pos)`.  Variable names follow the source. -/
def boxPreview (current_pos start_pos : Coord) : Grid :=
  let lefty := min current_pos.1 start_pos.1
  let righty := max current_pos.1 start_pos.1
  let topx := min current_pos.2 start_pos.2
  let bottomx := max current_pos.2 start_pos.2
  let g := Grid.empty
  let g := (List.range' lefty (righty - lefty)).foldl
    (fun g y => (g.insert (y, topx) '─').insert (y, bottomx) '─') g
  let g := (List.range' topx (bottomx - topx)).foldl
    (fun g x => (g.insert (lefty, x) '│').insert (righty, x) '│') g
  let g := g.insert (lefty, topx) '╭'
  let g := g.insert (righty, topx) '╮'
  let g := g.insert (lefty, bottomx) '╰'
  g.insert (righty, bottomx) '╯'

/-- The five possible outcomes of the arrow-direction if-chain. -/
inductive Direction
  | right
  | left
  | down
  | up
  | indeterminate
deriving DecidableEq

/-- The direction if-chain of the arrow block (src/main.rs lines 243-251),
a `u16` comparison chain: `prev.0 + 1 == cur.0`, `prev.0 - 1 == cur.0`,
`prev.1 + 1 == cur.1`, `prev.1 - 1 == cur.1`, in that order.  We model the
release-profile wrapping of `+ 1` and `- 1` on `u16` with `% 65536`
(adding `65535` is two's-complement subtraction of one). -/
def direction (prev cur : Coord) : Direction :=
  if (prev.1 + 1) % 65536 = cur.1 then Direction.right
  else if (prev.1 + 65535) % 65536 = cur.1 then Direction.left
  else if (prev.2 + 1) % 65536 = cur.2 then Direction.down
  else if (prev.2 + 65535) % 65536 = cur.2 then Direction.up
  else Direction.indeterminate

/-- The head glyph the arrow block writes at `current_pos` for each branch
of the direction if-chain. -/
def headGlyph : Direction → Char
  | Direction.right => '▶'
  | Direction.left => '◀'
  | Direction.down => '▼'
  | Direction.up => '▲'
  | Direction.indeterminate => '◆'

/-- The rewrite applied at `prev_pos`: the `match preview.get(&prev_pos)`
arms `Some('▶') | Some('◀') | Some('▼') | Some('▲')` each rerun the same
direction if-chain and insert a replacement; any other glyph (`Some(_)`)
and absence (`None`) leave the cell untouched, which we render as `none`. -/
def rewriteGlyph (c : Char) (d : Direction) : Option Char :=
  if c = '▶' then some (match d with
    | Direction.right => '─'
    | Direction.left => '─'
    | Direction.down => '╮'
    | Direction.up => '╯'
    | Direction.indeterminate => '+')
  else if c = '◀' then some (match d with
    | Direction.right => '─'
    | Direction.left => '─'
    | Direction.down => '╭'
    | Direction.up => '╰'
    | Direction.indeterminate => '+')
  else if c = '▼' then some (match d with
    | Direction.right => '╰'
    | Direction.left => '╯'
    | Direction.down => '│'
    | Direction.up => '│'
    | Direction.indeterminate => '+')
  else if c = '▲' then some (match d with
    | Direction.right => '╭'
    | Direction.left => '╮'
    | Direction.down => '│'
    | Direction.up => '│'
    | Direction.indeterminate => '+')
  else none

/-- The arrow block (src/main.rs lines 242-309): write the head glyph at
`current_pos`, then inspect the preview at `prev_pos` (the read happens
after the head insert, exactly as in the source) and rewrite it when it
holds a directional head. -/
def arrowUpdate (s : GlobalState) : GlobalState :=
  let d := direction s.prev_pos s.current_pos
  let pv := s.preview.insert s.current_pos (headGlyph d)
  let pv :=
    match pv s.prev_pos with
    | some c =>
        match rewriteGlyph c d with
        | some r => pv.insert s.prev_pos r
        | none => pv
    | none => pv
  { s with preview := pv }

/-- The shape-preview block that runs after the key match on every key
event (src/main.rs lines 222-313): regenerate the box preview in BOX mode,
run the arrow automaton in ARROW mode, and clear the preview otherwise. -/
def postStep (s : GlobalState) : GlobalState :=
  if s.input_state = InputState.BOX then
    { s with preview := boxPreview s.current_pos s.start_pos }
  else if s.input_state = InputState.ARROW then
    arrowUpdate s
  else
    { s with preview := Grid.empty }

/-- One full `process_input` pass for a key event: the key match followed
by the shape-preview block. -/
def process_input (s : GlobalState) (e : KeyEvent) : GlobalState :=
  postStep (matchStep s e)

/-- Folding `process_input` over a list of key events (the event loop of
`run`, which only reads the state between events). -/
def runEvents (s : GlobalState) : List KeyEvent → GlobalState
  | [] => s
  | e :: es => runEvents (process_input s e) es

/-- Outcome of one OS file operation, as seen by the save handler. -/
inductive IOOutcome
  | ok
  | err
deriving DecidableEq

/-- What happens to the editor session after the Ctrl+S arm runs. -/
inductive SaveSessionResult
  | continues
  | panicked
  | aborted
deriving DecidableEq

/-- The save arm (src/main.rs lines 142-148): `File::create("output.txt")?`
propagates its error out of `process_input` (aborting the event loop in
`run`/`main`); the `Result` of `buf_write.write(chars.as_bytes())` is
dropped on the floor (the binder is unused below, as in the source); and
`buf_write.flush().unwrap()` panics when flushing fails. -/
def handleSave (createR _writeR flushR : IOOutcome) : SaveSessionResult :=
  match createR with
  | IOOutcome.err => SaveSessionResult.aborted
  | IOOutcome.ok =>
      match flushR with
      | IOOutcome.err => SaveSessionResult.panicked
      | IOOutcome.ok => SaveSessionResult.continues

/-- The short-circuit condition under which the arm `prev.0 - 1 == cur.0`
of the direction if-chain is evaluated: exactly when the first arm
`prev.0 + 1 == cur.0` fails. -/
def xSubtractionReached (prev cur : Coord) : Prop :=
  ¬ (prev.1 + 1) % 65536 = cur.1

/-- The short-circuit condition under which the arm `prev.1 - 1 == cur.1`
is evaluated: the three arms before it all fail. -/
def ySubtractionReached (prev cur : Coord) : Prop :=
  xSubtractionReached prev cur ∧
    ¬ (prev.1 + 65535) % 65536 = cur.1 ∧ ¬ (prev.2 + 1) % 65536 = cur.2

instance (prev cur : Coord) : Decidable (xSubtractionReached prev cur) := by
  unfold xSubtractionReached; infer_instance

instance (prev cur : Coord) : Decidable (ySubtractionReached prev cur) := by
  unfold ySubtractionReached; infer_instance

/-! ### Structural lemmas about the step functions -/

theorem direction_self (p : Coord) : direction p p = Direction.indeterminate := by
  unfold direction
  have h1 : ¬ (p.1 + 1) % 65536 = p.1 := by omega
  have h2 : ¬ (p.1 + 65535) % 65536 = p.1 := by omega
  have h3 : ¬ (p.2 + 1) % 65536 = p.2 := by omega
  have h4 : ¬ (p.2 + 65535) % 65536 = p.2 := by omega
  simp [h1, h2, h3, h4]

theorem rewriteGlyph_diamond (d : Direction) : rewriteGlyph '◆' d = none := rfl

/-- The arrow block touches only the preview field. -/
theorem arrowUpdate_only_preview (s : GlobalState) :
    (arrowUpdate s).current_pos = s.current_pos ∧
    (arrowUpdate s).prev_pos = s.prev_pos ∧
    (arrowUpdate s).start_pos = s.start_pos ∧
    (arrowUpdate s).input_state = s.input_state ∧
    (arrowUpdate s).window_size = s.window_size ∧
    (arrowUpdate s).diagram = s.diagram := by
  exact ⟨rfl, rfl, rfl, rfl, rfl, rfl⟩

/-- The shape-preview block touches only the preview field. -/
theorem postStep_only_preview (s : GlobalState) :
    (postStep s).current_pos = s.current_pos ∧
    (postStep s).prev_pos = s.prev_pos ∧
    (postStep s).start_pos = s.start_pos ∧
    (postStep s).input_state = s.input_state ∧
    (postStep s).window_size = s.window_size ∧
    (postStep s).diagram = s.diagram := by
  unfold postStep
  split_ifs <;> exact ⟨rfl, rfl, rfl, rfl, rfl, rfl⟩

/-- Pointwise description of the preview after the arrow block: the head
glyph lands at `current_pos`; at a distinct `prev_pos` a directional head
is replaced by its table entry and any other content is untouched. -/
theorem arrowUpdate_preview (s : GlobalState) (p : Coord) :
    (arrowUpdate s).preview p =
      if p = s.current_pos then
        some (headGlyph (direction s.prev_pos s.current_pos))
      else if p = s.prev_pos then
        Option.map
          (fun c => (rewriteGlyph c (direction s.prev_pos s.current_pos)).getD c)
          (s.preview p)
      else s.preview p := by
  by_cases hpc : s.prev_pos = s.current_pos
  · have hdi : direction s.prev_pos s.current_pos = Direction.indeterminate := by
      rw [hpc]; exact direction_self _
    simp only [arrowUpdate, hdi, headGlyph]
    have hread : Grid.insert s.preview s.current_pos '◆' s.prev_pos = some '◆' := by
      simp [Grid.insert, hpc]
    rw [hread]
    simp only [rewriteGlyph_diamond]
    by_cases hp : p = s.current_pos
    · simp [Grid.insert, hp]
    · have hp' : ¬ p = s.prev_pos := by rw [hpc]; exact hp
      simp [Grid.insert, hp, hp']
  · simp only [arrowUpdate]
    have hread : Grid.insert s.preview s.current_pos
        (headGlyph (direction s.prev_pos s.current_pos)) s.prev_pos
        = s.preview s.prev_pos := by
      simp [Grid.insert, hpc]
    rw [hread]
    cases hsp : s.preview s.prev_pos with
    | none =>
        by_cases hp : p = s.current_pos
        · simp [Grid.insert, hp]
        · by_cases hq : p = s.prev_pos
          · simp [Grid.insert, hp, hq, hsp]
          · simp [Grid.insert, hp, hq]
    | some c =>
        cases hrw : rewriteGlyph c (direction s.prev_pos s.current_pos) with
        | none =>
            simp only [hrw]
            by_cases hp : p = s.current_pos
            · simp [Grid.insert, hp]
            · by_cases hq : p = s.prev_pos
              · simp [Grid.insert, hp, hq, hsp, hrw]
              · simp [Grid.insert, hp, hq]
        | some r =>
            simp only [hrw]
            by_cases hp : p = s.current_pos
            · have hp' : ¬ p = s.prev_pos := by rw [hp]; intro h; exact hpc h.symm
              have hcp : ¬ s.current_pos = s.prev_pos := fun h => hpc h.symm
              simp [Grid.insert, hp, hp', hcp]
            · by_cases hq : p = s.prev_pos
              · simp [Grid.insert, hp, hq, hsp, hrw, hpc]
              · simp [Grid.insert, hp, hq]

/-- The rectangle outline is symmetric in its two corners: only
`min`/`max` of the coordinates enter the construction. -/
theorem boxPreview_comm (a c : Coord) : boxPreview a c = boxPreview c a := by
  simp only [boxPreview, Nat.min_comm, Nat.max_comm]

/-- Degenerate rectangle: with both corners equal, the loops are empty and
the four corner inserts hit the same cell; the last one, `╯`, wins. -/
theorem boxPreview_self (p : Coord) : boxPreview p p = Grid.insert Grid.empty p '╯' := by
  unfold boxPreview
  simp only [Nat.min_self, Nat.max_self, Nat.sub_self, List.range'_zero, List.foldl_nil]
  funext q
  by_cases hq : q = (p.1, p.2)
  · simp [Grid.insert, hq]
  · simp [Grid.insert, hq]

/-- The key-match never changes the window size. -/
theorem matchStep_window (s : GlobalState) (e : KeyEvent) :
    (matchStep s e).window_size = s.window_size := by
  cases e <;> unfold matchStep <;> (repeat' split) <;> rfl

/-- A whole `process_input` pass never changes the window size. -/
theorem process_input_window (s : GlobalState) (e : KeyEvent) :
    (process_input s e).window_size = s.window_size := by
  unfold process_input
  rw [(postStep_only_preview (matchStep s e)).2.2.2.2.1]
  exact matchStep_window s e

/-- The key-match keeps the cursor inside the closed box
`[0, width] × [0, height]`. -/
theorem matchStep_cursor_le (s : GlobalState) (e : KeyEvent)
    (hx : s.current_pos.1 ≤ s.window_size.1)
    (hy : s.current_pos.2 ≤ s.window_size.2) :
    (matchStep s e).current_pos.1 ≤ (matchStep s e).window_size.1 ∧
    (matchStep s e).current_pos.2 ≤ (matchStep s e).window_size.2 := by
  cases e <;> unfold matchStep <;> (repeat' split) <;>
    (constructor <;> dsimp only <;> omega)

/-- A whole `process_input` pass keeps the cursor inside the closed box
`[0, width] × [0, height]`. -/
theorem process_input_cursor_le (s : GlobalState) (e : KeyEvent)
    (hx : s.current_pos.1 ≤ s.window_size.1)
    (hy : s.current_pos.2 ≤ s.window_size.2) :
    (process_input s e).current_pos.1 ≤ (process_input s e).window_size.1 ∧
    (process_input s e).current_pos.2 ≤ (process_input s e).window_size.2 := by
  unfold process_input
  rw [(postStep_only_preview (matchStep s e)).1,
    (postStep_only_preview (matchStep s e)).2.2.2.2.1]
  exact matchStep_cursor_le s e hx hy

/-! ### The claims -/

/-- C2: processing Confirm (Enter) in Box or Arrow mode inserts every
Preview entry into Diagram with the same glyph (Preview overwrites Diagram
at shared Coordinates), leaves Diagram unchanged at Coordinates absent from
Preview, leaves Preview empty, and sets the mode to Insert. -/
theorem confirm_merges_preview_into_diagram (s : GlobalState)
    (hm : s.input_state = InputState.BOX ∨ s.input_state = InputState.ARROW) :
    (∀ p c, s.preview p = some c →
      (process_input s KeyEvent.enter).diagram p = some c) ∧
    (∀ p, s.preview p = none →
      (process_input s KeyEvent.enter).diagram p = s.diagram p) ∧
    (∀ p, (process_input s KeyEvent.enter).preview p = none) ∧
    (process_input s KeyEvent.enter).input_state = InputState.INSERT := by
  have hms : matchStep s KeyEvent.enter =
      { s with diagram := Grid.override s.diagram s.preview,
               preview := Grid.empty,
               input_state := InputState.INSERT } := by
    rcases hm with h | h <;> (unfold matchStep; rw [h])
  unfold process_input
  rw [hms]
  unfold postStep
  simp only [reduceCtorEq, if_false, if_true]
  refine ⟨?_, ?_, ?_, ?_⟩
  · intro p c hp
    show Grid.override s.diagram s.preview p = some c
    simp [Grid.override, hp]
  · intro p hp
    show Grid.override s.diagram s.preview p = s.diagram p
    simp [Grid.override, hp]
  · intro p; rfl
  · trivial

/-- C3: whenever an input event leaves the engine in Box mode, the Preview
is exactly the rectangle regenerated from (Cursor, Anchor); the rectangle
is a pure function of the two corners, symmetric under swapping them, and
collapses to the single glyph `╯` when they coincide. -/
theorem box_mode_preview_is_rectangle (s : GlobalState) (e : KeyEvent)
    (hb : (process_input s e).input_state = InputState.BOX) :
    (process_input s e).preview
        = boxPreview (process_input s e).current_pos (process_input s e).start_pos ∧
    (∀ a c : Coord, boxPreview a c = boxPreview c a) ∧
    (∀ p : Coord, boxPreview p p = Grid.insert Grid.empty p '╯') := by
  refine ⟨?_, boxPreview_comm, boxPreview_self⟩
  have hb' : (matchStep s e).input_state = InputState.BOX := by
    have h := (postStep_only_preview (matchStep s e)).2.2.2.1
    rw [process_input] at hb
    rw [h] at hb
    exact hb
  unfold process_input postStep
  rw [if_pos hb']

/-- C4 counterexample: with a 1×1 window, a single Right from the initial
state drives `Cursor.x` to `width` itself, so the cursor is not confined to
the half-open range `[0, width)`. -/
theorem cursor_reaches_width :
    (process_input (initialState (1, 1)) KeyEvent.right).current_pos.1 = 1 ∧
    (initialState (1, 1)).window_size.1 = 1 := by
  constructor <;> rfl

/-- C4 amended: from the initial state, every sequence of key events keeps
the cursor inside the closed box `[0, width] × [0, height]`: the guards
compare with `<` before incrementing, so the cursor can reach `width`
(resp. `height`) but never exceeds it and never wraps. -/
theorem cursor_in_closed_viewport (sz : Coord) (es : List KeyEvent) :
    (runEvents (initialState sz) es).current_pos.1 ≤ sz.1 ∧
    (runEvents (initialState sz) es).current_pos.2 ≤ sz.2 := by
  have key : ∀ (l : List KeyEvent) (s : GlobalState),
      s.current_pos.1 ≤ s.window_size.1 → s.current_pos.2 ≤ s.window_size.2 →
      (runEvents s l).current_pos.1 ≤ (runEvents s l).window_size.1 ∧
      (runEvents s l).current_pos.2 ≤ (runEvents s l).window_size.2 ∧
      (runEvents s l).window_size = s.window_size := by
    intro l
    induction l with
    | nil => intro s hx hy; exact ⟨hx, hy, rfl⟩
    | cons e t ih =>
        intro s hx hy
        have h := process_input_cursor_le s e hx hy
        have hw := process_input_window s e
        have hrec := ih (process_input s e) h.1 h.2
        refine ⟨hrec.1, hrec.2.1, ?_⟩
        show (runEvents s (e :: t)).window_size = s.window_size
        have : runEvents s (e :: t) = runEvents (process_input s e) t := rfl
        rw [this, hrec.2.2, hw]
  obtain ⟨h1, h2, hwin⟩ := key es (initialState sz) (Nat.zero_le _) (Nat.zero_le _)
  rw [hwin] at h1 h2
  exact ⟨h1, h2⟩

/-- The four movement arms never change the mode or the preview. -/
theorem matchStep_movement_keeps (s : GlobalState) (e : KeyEvent)
    (he : e = KeyEvent.left ∨ e = KeyEvent.right ∨
      e = KeyEvent.up ∨ e = KeyEvent.down) :
    (matchStep s e).input_state = s.input_state ∧
    (matchStep s e).preview = s.preview := by
  have one : ∀ (cond : Prop) (inst : Decidable cond) (s' : GlobalState),
      s'.input_state = s.input_state → s'.preview = s.preview →
      (@ite _ cond inst s' s).input_state = s.input_state ∧
      (@ite _ cond inst s' s).preview = s.preview := by
    intro cond inst s' h1 h2
    split_ifs with hc
    · exact ⟨h1, h2⟩
    · exact ⟨rfl, rfl⟩
  rcases he with h | h | h | h <;> subst h <;> exact one _ _ _ rfl rfl

/-- C1: in Arrow mode, every movement event writes the head glyph of the
classified direction at the (new) Cursor; at PreviousCursor a directional
head is replaced by its transition-table entry, and absent or non-head
content is left untouched; all other cells are unchanged. -/
theorem arrow_mode_movement_glyphs (s : GlobalState) (e : KeyEvent)
    (hm : s.input_state = InputState.ARROW)
    (he : e = KeyEvent.left ∨ e = KeyEvent.right ∨
      e = KeyEvent.up ∨ e = KeyEvent.down)
    (p : Coord) :
    (process_input s e).preview p =
      if p = (process_input s e).current_pos then
        some (headGlyph
          (direction (process_input s e).prev_pos (process_input s e).current_pos))
      else if p = (process_input s e).prev_pos then
        Option.map
          (fun c => (rewriteGlyph c
            (direction (process_input s e).prev_pos
              (process_input s e).current_pos)).getD c)
          (s.preview p)
      else s.preview p := by
  have hk := matchStep_movement_keeps s e he
  have hmode : (matchStep s e).input_state = InputState.ARROW := by rw [hk.1, hm]
  have hps : process_input s e = arrowUpdate (matchStep s e) := by
    unfold process_input postStep
    rw [hmode]
    simp
  rw [hps]
  rw [(arrowUpdate_only_preview (matchStep s e)).1,
    (arrowUpdate_only_preview (matchStep s e)).2.1]
  rw [← hk.2]
  exact arrowUpdate_preview (matchStep s e) p

/-- A concrete Arrow-mode state: the initial state with the mode forced to
ARROW (as after Ctrl+A at the origin). -/
def arrowDemoState : GlobalState :=
  { initialState (10, 10) with input_state := InputState.ARROW }

theorem arrow_mode_movement_glyphs_witness :
    (process_input arrowDemoState KeyEvent.right).preview (1, 0) = some '▶' := by
  have h := arrow_mode_movement_glyphs arrowDemoState KeyEvent.right rfl
    (Or.inr (Or.inl rfl)) (1, 0)
  rw [h]
  rfl

/-- C5 counterexample: draw a 2-cell box from the origin, then press Ctrl+A
to switch to Arrow mode: the engine is now in Arrow mode, yet the box
preview entry at (0,0) (the glyph `╰`) survives into the new mode's
Preview. -/
theorem box_preview_survives_into_arrow :
    (runEvents (initialState (10, 10))
      [KeyEvent.ctrlB, KeyEvent.right]).preview (0, 0) = some '╰' ∧
    (runEvents (initialState (10, 10))
      [KeyEvent.ctrlB, KeyEvent.right, KeyEvent.ctrlA]).input_state
        = InputState.ARROW ∧
    (runEvents (initialState (10, 10))
      [KeyEvent.ctrlB, KeyEvent.right, KeyEvent.ctrlA]).preview (0, 0)
        = some '╰' := by
  refine ⟨rfl, rfl, rfl⟩

/-- C5 amended: switching from Arrow to Box regenerates the Preview from
scratch (anchor = cursor, so it becomes the degenerate one-cell box), hence
nothing survives that direction; but switching from Box to Arrow does NOT
clear the Preview: every old box entry at a cell other than Cursor and
PreviousCursor survives unchanged into Arrow mode. -/
theorem mode_switch_preview_behaviour (s : GlobalState) :
    (s.input_state = InputState.ARROW →
      (process_input s KeyEvent.ctrlB).preview
        = boxPreview s.current_pos s.current_pos) ∧
    (s.input_state = InputState.BOX → ∀ p : Coord,
      p ≠ s.current_pos → p ≠ s.prev_pos →
      (process_input s KeyEvent.ctrlA).preview p = s.preview p) := by
  constructor
  · intro h
    have hne : s.input_state ≠ InputState.BOX := by rw [h]; intro hc; cases hc
    have hms : matchStep s KeyEvent.ctrlB =
        { s with input_state := InputState.BOX, start_pos := s.current_pos } := by
      unfold matchStep; rw [if_pos hne]
    unfold process_input
    rw [hms]
    rfl
  · intro h p hpc hpp
    have hne : s.input_state ≠ InputState.ARROW := by rw [h]; intro hc; cases hc
    have hms : matchStep s KeyEvent.ctrlA =
        { s with input_state := InputState.ARROW, start_pos := s.current_pos } := by
      unfold matchStep; rw [if_pos hne]
    unfold process_input
    rw [hms]
    unfold postStep
    simp only [reduceCtorEq, if_false, if_true]
    rw [arrowUpdate_preview]
    simp only []
    rw [if_neg hpc, if_neg hpp]

theorem confirm_merges_preview_into_diagram_witness :
    (process_input
      { initialState (10, 10) with
        input_state := InputState.BOX,
        preview := Grid.empty.insert (0, 0) '╯' }
      KeyEvent.enter).diagram (0, 0) = some '╯' ∧
    (process_input
      { initialState (10, 10) with
        input_state := InputState.BOX,
        preview := Grid.empty.insert (0, 0) '╯' }
      KeyEvent.enter).input_state = InputState.INSERT := by
  have h := confirm_merges_preview_into_diagram
    { initialState (10, 10) with
      input_state := InputState.BOX,
      preview := Grid.empty.insert (0, 0) '╯' } (Or.inl rfl)
  exact ⟨h.1 (0, 0) '╯' rfl, h.2.2.2⟩

theorem box_mode_preview_is_rectangle_witness :
    (process_input (initialState (10, 10)) KeyEvent.ctrlB).preview
      = boxPreview
          (process_input (initialState (10, 10)) KeyEvent.ctrlB).current_pos
          (process_input (initialState (10, 10)) KeyEvent.ctrlB).start_pos :=
  (box_mode_preview_is_rectangle (initialState (10, 10)) KeyEvent.ctrlB rfl).1

theorem mode_switch_preview_behaviour_witness :
    (process_input { initialState (10, 10) with input_state := InputState.ARROW }
      KeyEvent.ctrlB).preview = boxPreview (0, 0) (0, 0) :=
  (mode_switch_preview_behaviour
    { initialState (10, 10) with input_state := InputState.ARROW }).1 rfl

/-- The C6 event sequence: enter Arrow mode at the origin, then four Right
moves. -/
def arrowRun : List KeyEvent :=
  [KeyEvent.ctrlA, KeyEvent.right, KeyEvent.right, KeyEvent.right, KeyEvent.right]

/-- C6 counterexample: after entering Arrow mode at (0,0) and moving Right
four times, the cell (0,0) holds `◆` — the Indeterminate head written by
the arrow block on the Ctrl+A event itself (PreviousCursor = Cursor there),
never rewritten because `◆` is not a directional head — not `─` as
claimed. -/
theorem arrow_straight_run_start_cell :
    (runEvents (initialState (10, 10)) arrowRun).preview (0, 0) = some '◆' ∧
    some '◆' ≠ (some '─' : Option Char) := by
  exact ⟨rfl, by decide⟩

/-- C6 amended: the straight run yields Preview exactly
`{(0,0):◆, (1,0):─, (2,0):─, (3,0):─, (4,0):▶}`: the entry cell keeps the
diamond placed on mode entry; the interior cells are straightened to `─`
and the head `▶` sits at (4,0); all other cells are empty. -/
theorem arrow_straight_run_preview :
    ((runEvents (initialState (10, 10)) arrowRun).preview (0, 0) = some '◆' ∧
     (runEvents (initialState (10, 10)) arrowRun).preview (1, 0) = some '─' ∧
     (runEvents (initialState (10, 10)) arrowRun).preview (2, 0) = some '─' ∧
     (runEvents (initialState (10, 10)) arrowRun).preview (3, 0) = some '─' ∧
     (runEvents (initialState (10, 10)) arrowRun).preview (4, 0) = some '▶') ∧
    (∀ p : Coord, p ≠ (0, 0) → p ≠ (1, 0) → p ≠ (2, 0) → p ≠ (3, 0) →
      p ≠ (4, 0) → (runEvents (initialState (10, 10)) arrowRun).preview p = none) := by
  have hpv : (runEvents (initialState (10, 10)) arrowRun).preview =
      (((((((Grid.empty.insert (0, 0) '◆').insert (1, 0) '▶').insert
        (2, 0) '▶').insert (1, 0) '─').insert (3, 0) '▶').insert
        (2, 0) '─').insert (4, 0) '▶').insert (3, 0) '─' := rfl
  constructor
  · exact ⟨rfl, rfl, rfl, rfl, rfl⟩
  · intro p h0 h1 h2 h3 h4
    rw [hpv]
    simp only [Grid.insert]
    rw [if_neg h3, if_neg h4, if_neg h2, if_neg h3, if_neg h1, if_neg h2,
      if_neg h1, if_neg h0]
    rfl

theorem arrow_straight_run_preview_witness :
    (runEvents (initialState (10, 10)) arrowRun).preview (7, 7) = none :=
  arrow_straight_run_preview.2 (7, 7) (by decide) (by decide) (by decide)
    (by decide) (by decide)

/-- C7 counterexample: from the initial state, Right then Left puts the
cursor back at (0,0) with PreviousCursor (1,0); a further Left is clamped
at the boundary and leaves PreviousCursor at (1,0), not at the pre-event
Cursor value (0,0). -/
theorem clamped_move_keeps_prev_pos :
    (runEvents (initialState (10, 10))
      [KeyEvent.right, KeyEvent.left]).current_pos = (0, 0) ∧
    (runEvents (initialState (10, 10))
      [KeyEvent.right, KeyEvent.left, KeyEvent.left]).prev_pos = (1, 0) ∧
    ((1, 0) : Coord) ≠ (0, 0) := by
  exact ⟨rfl, rfl, by decide⟩

/-- C7 amended: a movement key copies the pre-event Cursor into
PreviousCursor exactly when the move is not clamped; a boundary-clamped
move leaves PreviousCursor (and everything else) unchanged; character
insertion never modifies PreviousCursor. -/
theorem movement_prev_pos_update (s : GlobalState) :
    ((0 < s.current_pos.1 →
        (process_input s KeyEvent.left).prev_pos = s.current_pos) ∧
     (s.current_pos.1 = 0 →
        (process_input s KeyEvent.left).prev_pos = s.prev_pos)) ∧
    ((s.current_pos.1 < s.window_size.1 →
        (process_input s KeyEvent.right).prev_pos = s.current_pos) ∧
     (¬ s.current_pos.1 < s.window_size.1 →
        (process_input s KeyEvent.right).prev_pos = s.prev_pos)) ∧
    ((0 < s.current_pos.2 →
        (process_input s KeyEvent.up).prev_pos = s.current_pos) ∧
     (s.current_pos.2 = 0 →
        (process_input s KeyEvent.up).prev_pos = s.prev_pos)) ∧
    ((s.current_pos.2 < s.window_size.2 →
        (process_input s KeyEvent.down).prev_pos = s.current_pos) ∧
     (¬ s.current_pos.2 < s.window_size.2 →
        (process_input s KeyEvent.down).prev_pos = s.prev_pos)) ∧
    (∀ c, (process_input s (KeyEvent.chr c)).prev_pos = s.prev_pos) := by
  have hpost : ∀ t : GlobalState, (postStep t).prev_pos = t.prev_pos :=
    fun t => (postStep_only_preview t).2.1
  refine ⟨⟨?_, ?_⟩, ⟨?_, ?_⟩, ⟨?_, ?_⟩, ⟨?_, ?_⟩, ?_⟩
  · intro h
    unfold process_input; rw [hpost]; simp only [matchStep]; rw [if_pos h]
  · intro h
    unfold process_input; rw [hpost]; simp only [matchStep]
    rw [if_neg (by omega)]
  · intro h
    unfold process_input; rw [hpost]; simp only [matchStep]; rw [if_pos h]
  · intro h
    unfold process_input; rw [hpost]; simp only [matchStep]; rw [if_neg h]
  · intro h
    unfold process_input; rw [hpost]; simp only [matchStep]; rw [if_pos h]
  · intro h
    unfold process_input; rw [hpost]; simp only [matchStep]
    rw [if_neg (by omega)]
  · intro h
    unfold process_input; rw [hpost]; simp only [matchStep]; rw [if_pos h]
  · intro h
    unfold process_input; rw [hpost]; simp only [matchStep]; rw [if_neg h]
  · intro c
    unfold process_input; rw [hpost]; simp only [matchStep]
    split_ifs <;> rfl

theorem movement_prev_pos_update_witness :
    (process_input (initialState (10, 10)) KeyEvent.right).prev_pos = (0, 0) ∧
    (process_input (initialState (10, 10)) (KeyEvent.chr 'x')).prev_pos = (0, 0) := by
  constructor
  · exact (movement_prev_pos_update (initialState (10, 10))).2.1.1 (by decide)
  · exact (movement_prev_pos_update (initialState (10, 10))).2.2.2.2 'x'

/-- C8: the save arm's observable error behaviour: a failed `write` leaves
the session running with no surfaced error (the `Result` is discarded), a
failed `flush` panics via `unwrap`, and a failed `File::create` aborts the
whole event loop through `?` — none of which is the claimed non-fatal
surfaced error. -/
theorem save_failure_behaviour :
    handleSave IOOutcome.ok IOOutcome.err IOOutcome.ok
      = SaveSessionResult.continues ∧
    handleSave IOOutcome.ok IOOutcome.ok IOOutcome.err
      = SaveSessionResult.panicked ∧
    handleSave IOOutcome.err IOOutcome.ok IOOutcome.ok
      = SaveSessionResult.aborted := ⟨rfl, rfl, rfl⟩

/-- C9 counterexample: with `'q'` already at (2,3), typing `'x'` there and
backspacing removes the cell entirely — the pre-insert glyph `'q'` is lost,
so the Diagram is not restored to its pre-insert state. -/
theorem insert_backspace_loses_glyph :
    ({ initialState (10, 10) with
        current_pos := (2, 3),
        diagram := Grid.empty.insert (2, 3) 'q' } :
      GlobalState).diagram (2, 3) = some 'q' ∧
    (runEvents
      { initialState (10, 10) with
        current_pos := (2, 3),
        diagram := Grid.empty.insert (2, 3) 'q' }
      [KeyEvent.chr 'x', KeyEvent.backspace]).diagram (2, 3) = none ∧
    (none : Option Char) ≠ some 'q' := by
  exact ⟨rfl, rfl, by decide⟩

/-- C9 amended: in Insert mode, when the Diagram holds nothing at the
cursor and the cursor column is below the width (so insertion advances),
inserting a character and then backspacing restores the whole Diagram and
returns the cursor to its original position; when a glyph was present it is
removed, not restored. -/
theorem insert_backspace_roundtrip (s : GlobalState) (c : Char)
    (hm : s.input_state = InputState.INSERT)
    (hd : s.diagram s.current_pos = none)
    (hw : s.current_pos.1 < s.window_size.1) :
    (∀ p, (runEvents s [KeyEvent.chr c, KeyEvent.backspace]).diagram p
        = s.diagram p) ∧
    (runEvents s [KeyEvent.chr c, KeyEvent.backspace]).current_pos
        = s.current_pos := by
  have hrun : runEvents s [KeyEvent.chr c, KeyEvent.backspace]
      = process_input (process_input s (KeyEvent.chr c)) KeyEvent.backspace := rfl
  have hd1 : (process_input s (KeyEvent.chr c)).diagram
      = s.diagram.insert s.current_pos c := by
    unfold process_input
    rw [(postStep_only_preview _).2.2.2.2.2]
    simp only [matchStep]; rw [if_pos hm, if_pos hw]
  have hc1 : (process_input s (KeyEvent.chr c)).current_pos
      = (s.current_pos.1 + 1, s.current_pos.2) := by
    unfold process_input
    rw [(postStep_only_preview _).1]
    simp only [matchStep]; rw [if_pos hm, if_pos hw]
  have hi1 : (process_input s (KeyEvent.chr c)).input_state
      = InputState.INSERT := by
    unfold process_input
    rw [(postStep_only_preview _).2.2.2.1]
    simp only [matchStep]; rw [if_pos hm, if_pos hw]; exact hm
  have hpos : 0 < (process_input s (KeyEvent.chr c)).current_pos.1 := by
    rw [hc1]; dsimp only; omega
  set s1 := process_input s (KeyEvent.chr c) with hs1
  have hd2 : (process_input s1 KeyEvent.backspace).diagram
      = s1.diagram.remove (s1.current_pos.1 - 1, s1.current_pos.2) := by
    unfold process_input
    rw [(postStep_only_preview _).2.2.2.2.2]
    simp only [matchStep]; rw [if_pos hi1, if_pos hpos]
  have hc2 : (process_input s1 KeyEvent.backspace).current_pos
      = (s1.current_pos.1 - 1, s1.current_pos.2) := by
    unfold process_input
    rw [(postStep_only_preview _).1]
    simp only [matchStep]; rw [if_pos hi1, if_pos hpos]
  rw [hrun]
  constructor
  · intro p
    rw [hd2, hc1, hd1]
    dsimp only
    rw [Nat.add_sub_cancel]
    by_cases hp : p = s.current_pos
    · subst hp
      simp [Grid.remove, Grid.insert, hd]
    · have hp' : ¬ p = (s.current_pos.1, s.current_pos.2) := by
        intro hq; exact hp (by rw [hq])
      simp [Grid.remove, Grid.insert, hp, hp']
  · rw [hc2, hc1]
    dsimp only
    rw [Nat.add_sub_cancel]

theorem insert_backspace_roundtrip_witness :
    (runEvents (initialState (10, 10))
      [KeyEvent.chr 'x', KeyEvent.backspace]).current_pos = (0, 0) :=
  (insert_backspace_roundtrip (initialState (10, 10)) 'x' rfl rfl
    (by decide)).2

/-- C10: entering Arrow mode at the origin (Ctrl+A in the initial state)
runs the arrow block with PreviousCursor = Cursor = (0,0); the first check
`prev.0 + 1 == cur.0` fails, so the unguarded `u16` subtraction
`prev.0 - 1` is evaluated with `prev.0 = 0` (and likewise `prev.1 - 1`
with `prev.1 = 0`): the subtraction is not restricted to `prev.x ≥ 1` /
`prev.y ≥ 1`, underflowing `u16` (a panic under overflow checks, a wrap to
65535 in release builds). -/
theorem arrow_entry_reaches_unguarded_subtractions :
    (matchStep (initialState (10, 10)) KeyEvent.ctrlA).input_state
      = InputState.ARROW ∧
    (matchStep (initialState (10, 10)) KeyEvent.ctrlA).prev_pos = (0, 0) ∧
    (matchStep (initialState (10, 10)) KeyEvent.ctrlA).current_pos = (0, 0) ∧
    xSubtractionReached (0, 0) (0, 0) ∧
    ySubtractionReached (0, 0) (0, 0) := by
  refine ⟨rfl, rfl, rfl, by decide, by decide⟩

end TermDraw
